import Mathlib

/-!
Verification development for the webauthn_prac deposit-tracking and
refund-authorization engine (`server/src/index.ts`).

The TypeScript server is shallowly embedded: `bigint` block numbers and
token amounts become `Nat` (all are non-negative `uint256` quantities and
no arithmetic here can overflow or go negative), addresses and hashes
become `String` with explicit lower-casing where the source calls
`toLowerCase()`, the global `accountStore` `Map` becomes an association
list, and in-place mutation of sessions and deposit records becomes
explicit state passing.  The remote chain (viem `publicClient`) is an
explicit oracle: a list of raw logs, a head block number, and a
block-timestamp function.  ABI decoding of the attacker-supplied
`userOp.callData` (viem `decodeFunctionData` / `decodeAbiParameters`) is
embedded as already-parsed inductive data with explicit constructors for
the decode-failure (throwing) outcomes.
-/

namespace WebauthnPrac

/-! ## Configuration constants (`shared/index.ts`, `server/src/index.ts`) -/

def USDC_DECIMALS : Nat := 6

def USDC_ADDRESS : String := "0x1c7D4B196Cb0C7B01d743Fbc6116a902379C7238"

def MIN_USDC_DEPOSIT : Nat := 10 ^ USDC_DECIMALS

def MAX_DEPOSITS : Nat := 20

def DEFAULT_LOOKBACK_BLOCKS : Nat := 2000

def MAX_GET_LOGS_RANGE : Nat := 10

/-- Embeds `const normalizeAddress = (value) => value.toLowerCase()`
(character-wise ASCII lower-casing, as `toLowerCase` does on hex addresses). -/
def normalizeAddress (value : String) : String := ⟨value.data.map Char.toLower⟩

/-! ## Data model -/

/-- Embeds `type DepositRecord` from `server/src/index.ts`. -/
structure DepositRecord where
  sender : String
  amount : Nat
  txHash : String
  logIndex : Nat
  blockNumber : Nat
  blockTimestamp : Nat
  ready : Bool
  refunded : Bool
  refundTxHash : Option String
deriving Repr, DecidableEq

/-- Embeds `type AccountSession`.  The `stopWatching` closure is data-free; only its
presence is observable, modelled by `hasStopHandle`. -/
structure AccountSession where
  credentialId : String
  accountAddress : String
  deposits : List DepositRecord
  isWatching : Bool
  hasStopHandle : Bool
  lastSyncedBlock : Option Nat
deriving Repr, DecidableEq

/-- The module-level `accountStore : Map<string, AccountSession>`, as an
association list keyed by the normalized address. -/
abbrev AccountStore := List (String × AccountSession)

/-- Embeds `accountStore.get(normalizeAddress(address))`. -/
def storeGet (store : AccountStore) (address : String) : Option AccountSession :=
  (store.find? (fun p => p.1 == normalizeAddress address)).map Prod.snd

/-- Embeds `accountStore.set(key, session)` — replaces the first binding of `key`,
or appends when absent (a `Map` key is unique, so at most one binding). -/
def storeSet (store : AccountStore) (key : String) (s : AccountSession) : AccountStore :=
  match store with
  | [] => [(key, s)]
  | p :: rest => if p.1 == key then (key, s) :: rest else p :: storeSet rest key s

/-- Embeds `const getAccountSession = (address) => accountStore.get(normalizeAddress(address))`. -/
def getAccountSession (store : AccountStore) (address : String) : Option AccountSession :=
  storeGet store address

/-! ## Deposit ledger (`recordDeposit`) -/

/-- The duplicate test inside `recordDeposit`:
`existing.txHash === record.txHash && existing.logIndex === record.logIndex`. -/
def sameDepositKey (record existing : DepositRecord) : Bool :=
  existing.txHash == record.txHash && existing.logIndex == record.logIndex

/-- Embeds `const recordDeposit = (session, record) => { ... }`: skip when a record
with the same (txHash, logIndex) exists; otherwise `unshift` the record and
`pop` the tail when the ledger exceeds `MAX_DEPOSITS`. -/
def recordDeposit (session : AccountSession) (record : DepositRecord) : AccountSession :=
  let duplicate := session.deposits.any (sameDepositKey record)
  if duplicate then session
  else
    let deposits := record :: session.deposits
    let deposits := if deposits.length > MAX_DEPOSITS then deposits.dropLast else deposits
    { session with deposits := deposits }

/-! ## Chain oracle and chunked log fetcher -/

/-- A raw `Transfer` log as delivered by the RPC.  Fields the source checks
for absence (`undefined`) are `Option`s. -/
structure RawLog where
  fromAddr : Option String
  toAddr : String
  value : Option Nat
  transactionHash : Option String
  logIndex : Option Nat
  blockNumber : Option Nat
deriving Repr, DecidableEq

/-- Range predicate of a `getLogs({fromBlock, toBlock})` query: a log is
returned only when it carries a concrete block number inside the range. -/
def logInRange (fromBlock toBlock : Nat) (log : RawLog) : Bool :=
  match log.blockNumber with
  | some b => decide (fromBlock ≤ b) && decide (b ≤ toBlock)
  | none => false

/-- The remote `publicClient.getLogs({address: USDC, eventName: "Transfer",
args: {to: account}, fromBlock, toBlock})` oracle over an abstract chain:
the chain logs filtered to the recipient and the block range, in chain
order. -/
def getLogs (chain : List RawLog) (account : String) (fromBlock toBlock : Nat) :
    List RawLog :=
  chain.filter (fun log => log.toAddr == account && logInRange fromBlock toBlock log)

/-- The `while (cursor <= end)` loop of `fetchTransferLogs`.  Besides the
accumulated logs it also returns the list of `(fromBlock, toBlock)`
sub-ranges actually queried, which the source determines by
`chunkEnd = cursor + MAX_GET_LOGS_RANGE - 1n` and
`toBlock = chunkEnd > end ? end : chunkEnd` (the ternary is `min`). -/
def fetchLoop (chain : List RawLog) (account : String) (cursor endBlock : Nat) :
    List RawLog × List (Nat × Nat) :=
  if _h : cursor ≤ endBlock then
    let toBlock := min (cursor + MAX_GET_LOGS_RANGE - 1) endBlock
    let rest := fetchLoop chain account (toBlock + 1) endBlock
    (getLogs chain account cursor toBlock ++ rest.1, (cursor, toBlock) :: rest.2)
  else ([], [])
termination_by endBlock + 1 - cursor
decreasing_by
  simp only [MAX_GET_LOGS_RANGE]
  omega

/-- Embeds `const fetchTransferLogs = async (publicClient, account, start, end) => ...`. -/
def fetchTransferLogs (chain : List RawLog) (account : String) (start endBlock : Nat) :
    List RawLog :=
  (fetchLoop chain account start endBlock).1

/-! ## Event ingestion (hydration loop body / watcher `onLogs` body) -/

/-- The validated fields of one raw log. -/
structure ParsedLog where
  sender : String
  value : Nat
  txHash : String
  logIndex : Nat
  blockNumber : Nat
deriving Repr, DecidableEq

/-- The skip conditions shared by the hydration loop
(`!log.blockNumber || log.logIndex === undefined || !log.transactionHash`
then `!sender || value === undefined`) and the watcher `onLogs`
(`!sender || value === undefined || !log.transactionHash ||
log.logIndex === undefined || !log.blockNumber`).  JavaScript falsiness:
`0n` block numbers and empty-string hashes/senders are also skipped, while
`value = 0n` and `logIndex = 0` pass (those use `=== undefined`). -/
def validLogFields (log : RawLog) : Option ParsedLog :=
  match log.blockNumber, log.logIndex, log.transactionHash, log.fromAddr, log.value with
  | some b, some idx, some tx, some sender, some v =>
    if b == 0 || tx == "" || sender == "" then none
    else some ⟨sender, v, tx, idx, b⟩
  | _, _, _, _, _ => none

/-- The `DepositRecord` literal built for an observed transfer event
(identical in `hydrateDeposits` and in the watcher `onLogs`):
`ready: value >= MIN_USDC_DEPOSIT`, `refunded: false`, timestamp resolved
through the block-timestamp oracle `ts`. -/
def logDepositRecord (ts : Nat → Nat) (p : ParsedLog) : DepositRecord :=
  { sender := p.sender
    amount := p.value
    txHash := p.txHash
    logIndex := p.logIndex
    blockNumber := p.blockNumber
    blockTimestamp := ts p.blockNumber
    ready := decide (MIN_USDC_DEPOSIT ≤ p.value)
    refunded := false
    refundTxHash := none }

/-- One iteration of the per-log loop: skip invalid logs, otherwise
`recordDeposit(session, record); session.lastSyncedBlock = log.blockNumber`. -/
def ingestLog (ts : Nat → Nat) (session : AccountSession) (log : RawLog) :
    AccountSession :=
  match validLogFields log with
  | none => session
  | some p =>
    let session := recordDeposit session (logDepositRecord ts p)
    { session with lastSyncedBlock := some p.blockNumber }

/-- The chain-side environment of one request: the log oracle, the current
head (`getBlockNumber()`) and the per-block timestamp oracle (`getBlock`). -/
structure ChainEnv where
  chain : List RawLog
  latestBlock : Nat
  blockTimestamp : Nat → Nat

/-- The `fromBlock` selection at the top of `hydrateDeposits`: resume from
the cursor plus one, otherwise apply the bounded default lookback. -/
def hydrateFromBlock (latestBlock : Nat) (lastSynced : Option Nat) : Nat :=
  match lastSynced with
  | some last => last + 1
  | none =>
    if latestBlock > DEFAULT_LOOKBACK_BLOCKS then latestBlock - DEFAULT_LOOKBACK_BLOCKS
    else 0

/-- The final cursor fix-up of `hydrateDeposits`:
`if (session.lastSyncedBlock === undefined || session.lastSyncedBlock <
latestBlock) session.lastSyncedBlock = latestBlock`. -/
def hydrateFinalize (latestBlock : Nat) (session : AccountSession) : AccountSession :=
  match session.lastSyncedBlock with
  | none => { session with lastSyncedBlock := some latestBlock }
  | some last =>
    if last < latestBlock then { session with lastSyncedBlock := some latestBlock }
    else session

/-- Embeds `const hydrateDeposits = async (publicClient, session) => { ... }`. -/
def hydrateDeposits (env : ChainEnv) (session : AccountSession) : AccountSession :=
  let latestBlock := env.latestBlock
  let fromBlock := hydrateFromBlock latestBlock session.lastSyncedBlock
  if fromBlock > latestBlock then
    { session with lastSyncedBlock := some latestBlock }
  else
    let logs := fetchTransferLogs env.chain session.accountAddress fromBlock latestBlock
    if logs.isEmpty then
      { session with lastSyncedBlock := some latestBlock }
    else
      hydrateFinalize latestBlock (logs.foldl (ingestLog env.blockTimestamp) session)

/-- The watcher `onLogs` callback body (one live poll delivery). -/
def watcherOnLogs (ts : Nat → Nat) (session : AccountSession) (logs : List RawLog) :
    AccountSession :=
  logs.foldl (ingestLog ts) session

/-- The watcher `onError` callback body:
`session.isWatching = false; session.stopWatching = undefined` — the block
cursor is not touched. -/
def watcherOnError (session : AccountSession) : AccountSession :=
  { session with isWatching := false, hasStopHandle := false }

/-- Embeds `async function ensureDepositWatcher(env, address)`.  Returns the
updated store together with the session object the source holds a live
reference to (the source mutates it in place). -/
def ensureDepositWatcher (env : ChainEnv) (store : AccountStore) (address : String) :
    AccountStore × Option AccountSession :=
  match getAccountSession store address with
  | none => (store, none)
  | some session =>
    if session.isWatching then
      let session := hydrateDeposits env session
      (storeSet store (normalizeAddress address) session, some session)
    else
      let session := hydrateDeposits env session
      let session := { session with isWatching := true, hasStopHandle := true }
      (storeSet store (normalizeAddress address) session, some session)

/-! ## `GET /account/:address/deposits` -/

/-- One element of the `deposits` array produced by `serializeDeposit`. -/
structure SerializedDeposit where
  sender : String
  amount : String
  txHash : String
  logIndex : Nat
  blockNumber : String
  blockTimestamp : Nat
  ready : Bool
  refunded : Bool
  refundTxHash : Option String
deriving Repr, DecidableEq

/-- Embeds `const serializeDeposit = (record) => ({...})`. -/
def serializeDeposit (record : DepositRecord) : SerializedDeposit :=
  { sender := record.sender
    amount := toString record.amount
    txHash := record.txHash
    logIndex := record.logIndex
    blockNumber := toString record.blockNumber
    blockTimestamp := record.blockTimestamp
    ready := record.ready
    refunded := record.refunded
    refundTxHash := record.refundTxHash }

/-- Responses of the deposits route. -/
inductive DepositsResponse where
  | invalidAddress
  | ok (deposits : List SerializedDeposit) (minDeposit : String) (decimals : Nat)
      (watching : Bool)
deriving Repr, DecidableEq

/-- The JavaScript `addressParam.startsWith("0x")` test, character-wise. -/
def jsStartsWith (s pre : String) : Bool :=
  s.data.take pre.data.length == pre.data

/-- Embeds `app.get("/account/:address/deposits", ...)`. -/
def getDepositsRoute (env : ChainEnv) (store : AccountStore) (addressParam : String) :
    AccountStore × DepositsResponse :=
  if !(jsStartsWith addressParam "0x") then (store, .invalidAddress)
  else
    match getAccountSession store addressParam with
    | some session =>
      let result := ensureDepositWatcher env store session.accountAddress
      match result.2 with
      | some s =>
        (result.1,
         .ok (s.deposits.map serializeDeposit) (toString MIN_USDC_DEPOSIT)
           USDC_DECIMALS s.isWatching)
      | none =>
        (result.1,
         .ok (session.deposits.map serializeDeposit) (toString MIN_USDC_DEPOSIT)
           USDC_DECIMALS session.isWatching)
    | none =>
      (store, .ok [] (toString MIN_USDC_DEPOSIT) USDC_DECIMALS false)

/-! ## `POST /account/refund`

The attacker-supplied `userOp.callData` is embedded in already-decoded form.
`decodeFunctionData(accountWebAuthnAbi, userOp.callData)` either throws
(`OuterCallData.malformed`), decodes some non-`execute` function
(`OuterCallData.otherFn`), or decodes `execute(mode, executionData)`; the
subsequent `decodeAbiParameters` of `executionData` either throws
(`OuterCallData.executeBadBatch`) or yields the batch of
`(address, uint256, bytes)` calls (`OuterCallData.execute`).  Likewise the
nested token call bytes either throw in `decodeFunctionData(usdcAbi, ...)`
(`TokenCallData.malformed`), decode a non-`transfer` function
(`TokenCallData.otherFn`) or decode `transfer(recipient, amount)`. -/

/-- Decoded form of the nested token call bytes. -/
inductive TokenCallData where
  | transfer (recipient : String) (amount : Nat)
  | otherFn (name : String)
  | malformed
deriving Repr, DecidableEq

/-- One `(address, uint256, bytes)` element of the execution batch. -/
structure ExecCall where
  target : String
  value : Nat
  callData : TokenCallData
deriving Repr, DecidableEq

/-- Decoded form of `userOp.callData`. -/
inductive OuterCallData where
  | execute (calls : List ExecCall)
  | executeBadBatch
  | otherFn (name : String)
  | malformed
deriving Repr, DecidableEq

/-- The fields of `SerializedPackedUserOperation` the validator inspects
(gas fields, signature placeholder, etc. are carried through untouched and
are irrelevant to every claim). -/
structure UserOperation where
  sender : String
  callData : OuterCallData
deriving Repr, DecidableEq

/-- Embeds `type RefundDepositInput` (the `amount` string already parsed by
`BigInt(deposit.amount)`). -/
structure RefundDepositInput where
  txHash : String
  sender : String
  amount : Nat
  logIndex : Nat
deriving Repr, DecidableEq

/-- The validator-relevant fields of `RefundRequestBody`.  The WebAuthn
metadata, `rHex`/`sHex` and the nonce only feed the re-encoded signature
and the broadcast payload, never a check. -/
structure RefundRequest where
  accountAddress : String
  credentialId : String
  userOp : UserOperation
  deposit : RefundDepositInput
deriving Repr, DecidableEq

/-- The distinct rejection reasons of the refund route.  `decodeFailed`
stands for a thrown decode error reaching the catch block of the route block. -/
inductive RefundError where
  | sessionNotFound
  | credentialMismatch
  | depositNotFound
  | alreadyRefunded
  | belowMinimum
  | senderMismatch
  | decodeFailed
  | invalidCallDataFunction
  | missingExecutionCalls
  | targetNotUsdc
  | nonzeroValue
  | notTransfer
  | recipientMismatch
  | amountMismatch
deriving Repr, DecidableEq

/-- The reason string of each rejection (`c.json({ error: ... }, status)`). -/
def RefundError.message : RefundError → String
  | .sessionNotFound => "Account session not found"
  | .credentialMismatch => "Credential mismatch"
  | .depositNotFound => "Deposit record not found"
  | .alreadyRefunded => "Deposit already refunded"
  | .belowMinimum => "Deposit below minimum amount"
  | .senderMismatch => "UserOperation sender mismatch"
  | .decodeFailed => " Failed to refund: <thrown decode error> "
  | .invalidCallDataFunction => "Invalid callData function"
  | .missingExecutionCalls => "Missing execution calls"
  | .targetNotUsdc => "Execution target must be USDC"
  | .nonzeroValue => "USDC transfer cannot include ETH value"
  | .notTransfer => "USDC call must be transfer"
  | .recipientMismatch => "Transfer recipient mismatch"
  | .amountMismatch => "Transfer amount mismatch"

/-- The HTTP status of each rejection. -/
def RefundError.statusCode : RefundError → Nat
  | .sessionNotFound => 404
  | .credentialMismatch => 403
  | .depositNotFound => 404
  | .decodeFailed => 500
  | _ => 400

/-- The `session.deposits.find(...)` predicate of the refund route:
`entry.txHash === deposit.txHash && entry.logIndex === deposit.logIndex &&
entry.sender.toLowerCase() === deposit.sender.toLowerCase() &&
entry.amount === depositAmount`. -/
def matchesDeposit (input : RefundDepositInput) (entry : DepositRecord) : Bool :=
  entry.txHash == input.txHash && entry.logIndex == input.logIndex &&
    normalizeAddress entry.sender == normalizeAddress input.sender &&
    entry.amount == input.amount

/-- The straight-line validation prefix of `app.post("/account/refund")`:
every early `return c.json({error}, status)` becomes `some reason`; falling
through to the submission code becomes `none`.  The checks appear exactly
in source order. -/
def validateRefund (store : AccountStore) (req : RefundRequest) : Option RefundError :=
  match getAccountSession store req.accountAddress with
  | none => some .sessionNotFound
  | some session =>
  if session.credentialId != req.credentialId then some .credentialMismatch
  else
  match session.deposits.find? (matchesDeposit req.deposit) with
  | none => some .depositNotFound
  | some storedDeposit =>
  if storedDeposit.refunded then some .alreadyRefunded
  else if !storedDeposit.ready then some .belowMinimum
  else if normalizeAddress req.userOp.sender != normalizeAddress req.accountAddress then
    some .senderMismatch
  else
  match req.userOp.callData with
  | .malformed => some .decodeFailed
  | .otherFn _ => some .invalidCallDataFunction
  | .executeBadBatch => some .decodeFailed
  | .execute calls =>
  match calls with
  | [] => some .missingExecutionCalls
  | firstCall :: _ =>
  if normalizeAddress firstCall.target != normalizeAddress USDC_ADDRESS then
    some .targetNotUsdc
  else if firstCall.value != 0 then some .nonzeroValue
  else
  match firstCall.callData with
  | .malformed => some .decodeFailed
  | .otherFn _ => some .notTransfer
  | .transfer recipient transferAmount =>
  if normalizeAddress recipient != normalizeAddress storedDeposit.sender then
    some .recipientMismatch
  else if transferAmount != storedDeposit.amount then some .amountMismatch
  else none

/-- Outcome of the external simulate → broadcast → receipt-wait sequence. -/
inductive SubmitOutcome where
  | simulateThrows (msg : String)
  | broadcastThrows (msg : String)
  | receiptThrows (msg : String)
  | reverted (hash : String)
  | success (hash : String)
deriving Repr, DecidableEq

/-- Responses of the refund route. -/
inductive RefundResponse where
  | failure (status : Nat) (message : String)
  | ok (hash : String)
deriving Repr, DecidableEq

/-- The in-place mutation `storedDeposit.refunded = true;
storedDeposit.refundTxHash = hash` applied to the record `find` located:
the first ledger entry matching the claimed deposit reference. -/
def markRefunded (deposits : List DepositRecord) (input : RefundDepositInput)
    (hash : String) : List DepositRecord :=
  match deposits with
  | [] => []
  | d :: rest =>
    if matchesDeposit input d then
      { d with refunded := true, refundTxHash := some hash } :: rest
    else d :: markRefunded rest input hash

/-- The success-path store update (the source mutates the aliased session
object held in `accountStore`). -/
def markRefundedStore (store : AccountStore) (req : RefundRequest) (hash : String) :
    AccountStore :=
  match getAccountSession store req.accountAddress with
  | none => store
  | some session =>
    storeSet store (normalizeAddress req.accountAddress)
      { session with deposits := markRefunded session.deposits req.deposit hash }

/-- Embeds `app.post("/account/refund")` as a state transformer: the validation
prefix, then the submission sequence with its externally-determined
outcome.  A thrown simulate/broadcast/receipt error lands in the
route-level `catch` (status 500); `receipt.status === "reverted"` returns the distinct
`Failed to Refund: Reverted` error; only the success path mutates. -/
def refundRoute (store : AccountStore) (req : RefundRequest)
    (outcome : SubmitOutcome) : AccountStore × RefundResponse :=
  match validateRefund store req with
  | some e => (store, .failure e.statusCode e.message)
  | none =>
    match outcome with
    | .simulateThrows msg => (store, .failure 500 (" Failed to refund: " ++ msg ++ " "))
    | .broadcastThrows msg => (store, .failure 500 (" Failed to refund: " ++ msg ++ " "))
    | .receiptThrows msg => (store, .failure 500 (" Failed to refund: " ++ msg ++ " "))
    | .reverted _ => (store, .failure 500 " Failed to Refund: Reverted ")
    | .success hash => (markRefundedStore store req hash, .ok hash)

/-! ## Spec-side reference definitions (for refinement claims) -/

/-- Does `userOp.callData` decode as `execute`? (spec check 7). -/
def OuterCallData.isExecute : OuterCallData → Bool
  | .execute _ => true
  | _ => false

/-- The decoded execution batch (empty when not an `execute` payload). -/
def OuterCallData.executionCalls : OuterCallData → List ExecCall
  | .execute calls => calls
  | _ => []

/-- Does the nested call decode as `transfer`? (spec check 10). -/
def TokenCallData.isTransfer : TokenCallData → Bool
  | .transfer _ _ => true
  | _ => false

/-- The decoded transfer recipient (dummy for non-transfer payloads, which
an earlier check already rejects). -/
def TokenCallData.recipient : TokenCallData → String
  | .transfer r _ => r
  | _ => ""

/-- The decoded transfer amount (dummy for non-transfer payloads). -/
def TokenCallData.transferredAmount : TokenCallData → Nat
  | .transfer _ a => a
  | _ => 0

/-- Modelled from the spec: the spec section 4.5 checks 4–12 as an ordered list of
(check-passes?, failure-reason) pairs, evaluated against the resolved
session record.  Check 9 carries the two reasons the error taxonomy
distinguishes (wrong target / nonzero attached value). -/
def specChecks (req : RefundRequest) (storedDeposit : DepositRecord) :
    List (Bool × RefundError) :=
  let callData := req.userOp.callData
  let calls := callData.executionCalls
  let firstCall := calls.headD ⟨"", 0, .malformed⟩
  [ (!storedDeposit.refunded, .alreadyRefunded),
    (storedDeposit.ready, .belowMinimum),
    (normalizeAddress req.userOp.sender == normalizeAddress req.accountAddress,
      .senderMismatch),
    (callData.isExecute, .invalidCallDataFunction),
    (!calls.isEmpty, .missingExecutionCalls),
    (normalizeAddress firstCall.target == normalizeAddress USDC_ADDRESS, .targetNotUsdc),
    (firstCall.value == 0, .nonzeroValue),
    (firstCall.callData.isTransfer, .notTransfer),
    (normalizeAddress firstCall.callData.recipient ==
      normalizeAddress storedDeposit.sender, .recipientMismatch),
    (firstCall.callData.transferredAmount == storedDeposit.amount, .amountMismatch) ]

/-- Modelled from the spec: the spec section 4.5 fail-closed validation sequence — resolve
the session (check 1), the credential binding (check 2) and the ledger
record (check 3), then return the reason of the first failing check among
4–12, or `none` when all pass. -/
def specValidationFirstFailure (store : AccountStore) (req : RefundRequest) :
    Option RefundError :=
  match getAccountSession store req.accountAddress with
  | none => some .sessionNotFound
  | some session =>
    if session.credentialId != req.credentialId then some .credentialMismatch
    else
      match session.deposits.find? (matchesDeposit req.deposit) with
      | none => some .depositNotFound
      | some storedDeposit =>
        ((specChecks req storedDeposit).find? (fun c => !c.1)).map Prod.snd

/-- A request whose nested payloads all decode without throwing (checks 7
and 10 can then fail only by decoding a *different* function). -/
def reqDecodes (req : RefundRequest) : Bool :=
  match req.userOp.callData with
  | .malformed => false
  | .executeBadBatch => false
  | .otherFn _ => true
  | .execute calls =>
    match calls with
    | [] => true
    | firstCall :: _ =>
      match firstCall.callData with
      | .malformed => false
      | _ => true

/-- The reason strings of all fourteen distinct rejections, in check order. -/
def validationMessages : List String :=
  [RefundError.sessionNotFound, RefundError.credentialMismatch,
   RefundError.depositNotFound, RefundError.alreadyRefunded,
   RefundError.belowMinimum, RefundError.senderMismatch,
   RefundError.decodeFailed, RefundError.invalidCallDataFunction,
   RefundError.missingExecutionCalls, RefundError.targetNotUsdc,
   RefundError.nonzeroValue, RefundError.notTransfer,
   RefundError.recipientMismatch, RefundError.amountMismatch].map
    RefundError.message

/-! ## Invariants and concrete instances used by witnesses and counterexamples -/

/-- The ledger invariant: no two records share a (txHash, logIndex) pair. -/
def DepositKeysDistinct (deposits : List DepositRecord) : Prop :=
  deposits.Pairwise (fun a b => ¬(a.txHash = b.txHash ∧ a.logIndex = b.logIndex))

/-- Order of block numbers between two raw logs (logs without a block
number are unconstrained — every query filters them out anyway). -/
def blockLe (l1 l2 : RawLog) : Bool :=
  match l1.blockNumber, l2.blockNumber with
  | some b1, some b2 => decide (b1 ≤ b2)
  | _, _ => true

/-- A chain whose logs are listed in non-decreasing block order — the
delivery order guarantee of the remote log service. -/
def ChainSorted (chain : List RawLog) : Prop :=
  chain.Pairwise (fun a b => blockLe a b = true)

/-- Concrete ledger record for the C5 witness. -/
def c5deposit : DepositRecord :=
  { sender := "0xAAA", amount := 1000000, txHash := "0x111", logIndex := 0,
    blockNumber := 5, blockTimestamp := 0, ready := true, refunded := false,
    refundTxHash := none }

/-- Concrete session for the C5 witness. -/
def c5session : AccountSession :=
  { credentialId := "cred", accountAddress := "0xAcc", deposits := [c5deposit],
    isWatching := false, hasStopHandle := false, lastSyncedBlock := some 5 }

/-- A record carrying the same (txHash, logIndex) key as `c5deposit` but
different contents. -/
def c5duplicate : DepositRecord :=
  { c5deposit with sender := "0xBBB", amount := 42, blockNumber := 9 }

/-- Record builder for the C6 instances: record `i` of a full ledger. -/
def c6deposit (i : Nat) (ready : Bool) : DepositRecord :=
  { sender := "0xAAA", amount := if ready then MIN_USDC_DEPOSIT else 1,
    txHash := "0xdead", logIndex := i, blockNumber := i, blockTimestamp := 0,
    ready := ready, refunded := false, refundTxHash := none }

/-- The oldest (tail) record of the full C6 ledger: unrefunded and ready. -/
def c6readyTail : DepositRecord := c6deposit 19 true

/-- A session whose ledger is full (`MAX_DEPOSITS` records): nineteen
more-recent non-ready records, then the ready `c6readyTail` at the tail. -/
def c6session : AccountSession :=
  { credentialId := "cred", accountAddress := "0xAcc",
    deposits := (List.range 19).map (fun i => c6deposit i false) ++ [c6readyTail],
    isWatching := false, hasStopHandle := false, lastSyncedBlock := none }

/-- A fresh (non-duplicate) record inserted into the full C6 ledger. -/
def c6newRecord : DepositRecord := c6deposit 100 false

/-- Concrete session for the C7 witness (empty ledger). -/
def c7session : AccountSession :=
  { credentialId := "cred", accountAddress := "0xAcc", deposits := [],
    isWatching := false, hasStopHandle := false, lastSyncedBlock := none }

/-- Concrete record for the C7 witness. -/
def c7record : DepositRecord :=
  { sender := "0xAAA", amount := MIN_USDC_DEPOSIT, txHash := "0x777", logIndex := 1,
    blockNumber := 3, blockTimestamp := 0, ready := true, refunded := false,
    refundTxHash := none }

/-- Concrete request for the C1 witness (well-formed payload, no session). -/
def c1request : RefundRequest :=
  { accountAddress := "0xAcc", credentialId := "cred",
    userOp :=
      { sender := "0xAcc",
        callData := .execute [⟨USDC_ADDRESS, 0, .transfer "0xAAA" 1000000⟩] },
    deposit := { txHash := "0x111", sender := "0xAAA", amount := 1000000, logIndex := 0 } }

/-- Concrete already-refunded record for the C3 witness. -/
def c3deposit : DepositRecord :=
  { sender := "0xAAA", amount := 1000000, txHash := "0x333", logIndex := 0,
    blockNumber := 5, blockTimestamp := 0, ready := true, refunded := true,
    refundTxHash := some "0xsettled" }

/-- Concrete session for the C3 witness. -/
def c3session : AccountSession :=
  { credentialId := "cred", accountAddress := "0xacc", deposits := [c3deposit],
    isWatching := false, hasStopHandle := false, lastSyncedBlock := some 5 }

/-- Concrete store for the C3 witness. -/
def c3store : AccountStore := [("0xacc", c3session)]

/-- Concrete request for the C3 witness, referencing the refunded record. -/
def c3request : RefundRequest :=
  { accountAddress := "0xacc", credentialId := "cred",
    userOp :=
      { sender := "0xacc",
        callData := .execute [⟨USDC_ADDRESS, 0, .transfer "0xAAA" 1000000⟩] },
    deposit := { txHash := "0x333", sender := "0xAAA", amount := 1000000, logIndex := 0 } }

/-- Concrete sorted chain for the C4 witness: two transfers to `0xme`. -/
def c4chain : List RawLog :=
  [ ⟨some "0xAAA", "0xme", some 7, some "0xt1", some 0, some 2⟩,
    ⟨some "0xBBB", "0xme", some 9, some "0xt2", some 1, some 11⟩ ]

/-- Concrete session with a cursor ahead of the observed head (C8
counterexample: a lagging RPC node reports head 5 while the session has
already synced to block 10). -/
def c8laggingSession : AccountSession :=
  { credentialId := "cred", accountAddress := "0xAcc", deposits := [],
    isWatching := true, hasStopHandle := true, lastSyncedBlock := some 10 }

/-- Concrete environment whose head (5) is below the C8 session cursor (10). -/
def c8laggingEnv : ChainEnv := ⟨[], 5, fun _ => 0⟩

/-- Concrete session for the C8 witness (cursor 3, consistent head 5). -/
def c8session : AccountSession :=
  { credentialId := "cred", accountAddress := "0xAcc", deposits := [],
    isWatching := true, hasStopHandle := true, lastSyncedBlock := some 3 }

/-- Concrete environment for the C8 witness. -/
def c8env : ChainEnv := ⟨[], 5, fun _ => 0⟩

/-- Concrete valid raw log at block 9 for the C8 witness watcher part. -/
def c8log : RawLog := ⟨some "0xAAA", "0xAcc", some 7, some "0xt9", some 0, some 9⟩

/-- Concrete live session with cursor 5 for the C9 counterexample: the
chain head in the surrounding environment is 10, yet an empty poll leaves
the cursor at 5. -/
def c9session : AccountSession :=
  { credentialId := "cred", accountAddress := "0xacc", deposits := [],
    isWatching := true, hasStopHandle := true, lastSyncedBlock := some 5 }

/-- Concrete valid raw log at block 12 for the C9 witness. -/
def c9log : RawLog := ⟨some "0xBBB", "0xacc", some 8, some "0xtc", some 2, some 12⟩

/-- Concrete environment for the C10 witness. -/
def c10env : ChainEnv := ⟨[], 0, fun _ => 0⟩

/-! ## Helper lemmas -/

theorem recordDeposit_of_duplicate (s : AccountSession) (r : DepositRecord)
    (h : s.deposits.any (sameDepositKey r) = true) : recordDeposit s r = s := by
  simp [recordDeposit, h]

theorem recordDeposit_mem {s : AccountSession} {r e : DepositRecord}
    (h : e ∈ (recordDeposit s r).deposits) : e = r ∨ e ∈ s.deposits := by
  simp only [recordDeposit] at h
  cases hdup : s.deposits.any (sameDepositKey r) with
  | true => rw [hdup] at h; simp at h; exact Or.inr h
  | false =>
    rw [hdup] at h
    simp only [Bool.false_eq_true, if_false] at h
    by_cases hlen : (r :: s.deposits).length > MAX_DEPOSITS
    · rw [if_pos hlen] at h
      have h2 : e ∈ r :: s.deposits := List.Sublist.mem h (List.dropLast_sublist _)
      simpa using h2
    · rw [if_neg hlen] at h
      simpa using h

/-! ## Claim theorems -/

/-- C5: recording a deposit whose (transaction hash, log index) pair is
already present in the ledger of the session is a complete no-op, and
`recordDeposit` preserves key-distinctness of the ledger, so recording the
same pair twice never yields two ledger entries regardless of other
interleaved insertions. -/
theorem record_duplicate_is_noop :
    (∀ (s : AccountSession) (r : DepositRecord),
        (∃ e ∈ s.deposits, e.txHash = r.txHash ∧ e.logIndex = r.logIndex) →
        recordDeposit s r = s)
    ∧ (∀ (s : AccountSession) (r : DepositRecord),
        DepositKeysDistinct s.deposits →
        DepositKeysDistinct (recordDeposit s r).deposits) := by
  constructor
  · rintro s r ⟨e, he, h1, h2⟩
    apply recordDeposit_of_duplicate
    rw [List.any_eq_true]
    exact ⟨e, he, by simp [sameDepositKey, h1, h2]⟩
  · intro s r hd
    cases hdup : s.deposits.any (sameDepositKey r) with
    | true => rw [recordDeposit_of_duplicate s r hdup]; exact hd
    | false =>
      have hfresh : ∀ e ∈ s.deposits, ¬(r.txHash = e.txHash ∧ r.logIndex = e.logIndex) := by
        intro e he hkey
        have hx : s.deposits.any (sameDepositKey r) = true := by
          rw [List.any_eq_true]
          exact ⟨e, he, by simp [sameDepositKey, hkey.1, hkey.2]⟩
        rw [hdup] at hx; cases hx
      have hcons : DepositKeysDistinct (r :: s.deposits) :=
        List.pairwise_cons.mpr ⟨hfresh, hd⟩
      simp only [recordDeposit, hdup, Bool.false_eq_true, if_false]
      split
      · exact hcons.sublist (List.dropLast_sublist _)
      · exact hcons

/-- C5 witness: recording a record with the key of `c5deposit` (but other
contents) into `c5session` changes nothing, and key-distinctness holds
afterwards. -/
theorem record_duplicate_is_noop_witness :
    recordDeposit c5session c5duplicate = c5session
    ∧ DepositKeysDistinct (recordDeposit c5session c5duplicate).deposits := by
  constructor
  · exact record_duplicate_is_noop.1 c5session c5duplicate
      ⟨c5deposit, by decide, by decide, by decide⟩
  · refine record_duplicate_is_noop.2 c5session c5duplicate ?_
    simp [DepositKeysDistinct, c5session]

/-- C6 counterexample: with a full ledger whose tail (oldest) record is
unrefunded and ready, while all nineteen more-recent records are
non-ready, inserting a fresh record evicts the ready record even though
more-recent non-ready records remain — refuting the protection clause of
the claim. -/
theorem eviction_ready_protection_counterexample :
    c6session.deposits.length = MAX_DEPOSITS
    ∧ c6session.deposits.getLast? = some c6readyTail
    ∧ c6readyTail.ready = true
    ∧ c6readyTail.refunded = false
    ∧ (∃ e ∈ (recordDeposit c6session c6newRecord).deposits, e.ready = false)
    ∧ c6readyTail ∉ (recordDeposit c6session c6newRecord).deposits := by
  decide

/-- C6 (amended): inserting a non-duplicate record into a full ledger
keeps the ledger at `MAX_DEPOSITS` records and evicts exactly one record —
the tail of the newest-first ordering (the oldest by insertion recency) —
irrespective of the ready/refunded flags of the records. -/
theorem eviction_from_tail (s : AccountSession) (r : DepositRecord)
    (hlen : s.deposits.length = MAX_DEPOSITS)
    (hdup : s.deposits.any (sameDepositKey r) = false) :
    (recordDeposit s r).deposits = r :: s.deposits.dropLast
    ∧ (recordDeposit s r).deposits.length = MAX_DEPOSITS := by
  have hne : s.deposits ≠ [] := by
    intro h; rw [h] at hlen; simp [MAX_DEPOSITS] at hlen
  have hgt : (r :: s.deposits).length > MAX_DEPOSITS := by
    simp [hlen]
  have h1 : (recordDeposit s r).deposits = r :: s.deposits.dropLast := by
    simp only [recordDeposit, hdup, Bool.false_eq_true, if_false, if_pos hgt]
    exact List.dropLast_cons_of_ne_nil hne
  refine ⟨h1, ?_⟩
  rw [h1]
  simp [List.length_dropLast, hlen, MAX_DEPOSITS]

/-- C6 witness for the amended claim, at the concrete full ledger. -/
theorem eviction_from_tail_witness :
    (recordDeposit c6session c6newRecord).deposits =
      c6newRecord :: c6session.deposits.dropLast
    ∧ (recordDeposit c6session c6newRecord).deposits.length = MAX_DEPOSITS :=
  eviction_from_tail c6session c6newRecord (by decide) (by decide)

/-- C7: the ready flag of a freshly built deposit record is exactly
(amount ≥ minimum threshold): exactly the threshold is ready, one base
unit below is not; and every record in a ledger after `recordDeposit` is
either the newly inserted record or an untouched pre-existing one, so the
flag is never recomputed. -/
theorem ready_fixed_at_insertion :
    (∀ (ts : Nat → Nat) (p : ParsedLog),
        (logDepositRecord ts p).ready = decide (MIN_USDC_DEPOSIT ≤ p.value))
    ∧ (logDepositRecord (fun _ => 0) ⟨"0xAAA", MIN_USDC_DEPOSIT, "0x1", 0, 1⟩).ready = true
    ∧ (logDepositRecord (fun _ => 0) ⟨"0xAAA", MIN_USDC_DEPOSIT - 1, "0x1", 0, 1⟩).ready
        = false
    ∧ (∀ (s : AccountSession) (r e : DepositRecord),
        e ∈ (recordDeposit s r).deposits → e = r ∨ e ∈ s.deposits) :=
  ⟨fun _ _ => rfl, by decide, by decide, fun _ _ _ h => recordDeposit_mem h⟩

/-- C7 witness: the preservation part applied at a concrete insertion. -/
theorem ready_fixed_at_insertion_witness :
    c7record = c7record ∨ c7record ∈ c7session.deposits :=
  ready_fixed_at_insertion.2.2.2 c7session c7record c7record (by decide)

/-- C2: the matched record is marked refunded (with the settlement hash)
only on a successful submission outcome — the store is unchanged whenever
simulation throws, broadcast throws, receipt-wait throws, or the receipt
reports a reverted execution; and on success the update happens exactly
when validation passed. -/
theorem refund_marked_only_after_confirmation :
    (∀ store req msg, (refundRoute store req (.simulateThrows msg)).1 = store)
    ∧ (∀ store req msg, (refundRoute store req (.broadcastThrows msg)).1 = store)
    ∧ (∀ store req msg, (refundRoute store req (.receiptThrows msg)).1 = store)
    ∧ (∀ store req hash, (refundRoute store req (.reverted hash)).1 = store)
    ∧ (∀ store req hash,
        (refundRoute store req (.success hash)).1 =
          if validateRefund store req = none then markRefundedStore store req hash
          else store) := by
  refine ⟨?_, ?_, ?_, ?_, ?_⟩ <;>
    · intro store req x
      cases hv : validateRefund store req <;> simp [refundRoute, hv]

/-- C9 counterexample: a live poll cycle that delivered no events leaves
the session — in particular its block cursor — completely untouched.  With
the chain head at 10 and the session cursor at 5, the cursor stays at 5:
the watcher callback never reads the chain head, refuting the claim that
the cursor advances to the current head on empty polls. -/
theorem empty_poll_keeps_cursor_counterexample :
    watcherOnLogs (fun _ => 0) c9session [] = c9session
    ∧ c9session.lastSyncedBlock = some 5
    ∧ (5 : Nat) ≠ 10 :=
  ⟨rfl, rfl, by decide⟩

/-- C9 (amended): on a live poll cycle the delivered events are merged
into the ledger and the cursor is assigned the block number of each
well-formed event in delivery order — ending at the block of the last
well-formed event — while a poll that delivers no events leaves the
session unchanged (catch-up to the chain head happens in
`hydrateDeposits` on the next deposits read, not in the poll cycle). -/
theorem poll_cycle_cursor :
    (∀ (ts : Nat → Nat) (s : AccountSession), watcherOnLogs ts s [] = s)
    ∧ (∀ (ts : Nat → Nat) (s : AccountSession) (logs : List RawLog) (log : RawLog)
        (p : ParsedLog), validLogFields log = some p →
        (watcherOnLogs ts s (logs ++ [log])).lastSyncedBlock = some p.blockNumber) := by
  constructor
  · intro ts s; rfl
  · intro ts s logs log p hp
    unfold watcherOnLogs
    rw [List.foldl_append]
    simp [ingestLog, hp]

/-- C9 witness for the amended claim: an empty poll is the identity, and a
poll delivering one valid log at block 12 moves the cursor to 12. -/
theorem poll_cycle_cursor_witness :
    watcherOnLogs (fun _ => 0) c9session ([] ++ []) = c9session
    ∧ (watcherOnLogs (fun _ => 0) c9session ([] ++ [c9log])).lastSyncedBlock = some 12 :=
  ⟨poll_cycle_cursor.1 _ _,
   poll_cycle_cursor.2 (fun _ => 0) c9session [] c9log ⟨"0xBBB", 8, "0xtc", 2, 12⟩ (by decide)⟩

/-- C10: a deposits request for an address that starts with 0x but has no
session (under case-insensitive lookup) succeeds with an empty deposit
list, the configured minimum deposit and decimals, and watching = false,
and leaves the session map unchanged (no session is created). -/
theorem deposits_route_unknown_session (env : ChainEnv) (store : AccountStore)
    (addressParam : String)
    (h0x : jsStartsWith addressParam "0x" = true)
    (hnone : getAccountSession store addressParam = none) :
    getDepositsRoute env store addressParam =
      (store, .ok [] (toString MIN_USDC_DEPOSIT) USDC_DECIMALS false) := by
  simp [getDepositsRoute, h0x, hnone]

/-- C10 witness at the empty store. -/
theorem deposits_route_unknown_session_witness :
    getDepositsRoute c10env [] "0xabc" =
      ([], .ok [] (toString MIN_USDC_DEPOSIT) USDC_DECIMALS false) :=
  deposits_route_unknown_session c10env [] "0xabc" (by decide) rfl

theorem validateRefund_none_spec {store : AccountStore} {req : RefundRequest}
    (h : validateRefund store req = none) :
    ∃ session storedDeposit,
      getAccountSession store req.accountAddress = some session ∧
      session.deposits.find? (matchesDeposit req.deposit) = some storedDeposit ∧
      storedDeposit.refunded = false := by
  unfold validateRefund at h
  cases hs : getAccountSession store req.accountAddress with
  | none => rw [hs] at h; dsimp only at h; cases h
  | some session =>
    rw [hs] at h
    dsimp only at h
    by_cases hc : (session.credentialId != req.credentialId) = true
    · rw [if_pos hc] at h; cases h
    · rw [if_neg hc] at h
      cases hf : session.deposits.find? (matchesDeposit req.deposit) with
      | none => rw [hf] at h; dsimp only at h; cases h
      | some d =>
        rw [hf] at h
        dsimp only at h
        refine ⟨session, d, rfl, hf, ?_⟩
        by_cases hr : d.refunded = true
        · rw [if_pos hr] at h; cases h
        · simpa using hr

theorem mem_markRefunded_of_refunded {l : List DepositRecord}
    {input : RefundDepositInput} {hash : String} {d : DepositRecord}
    (hd : d ∈ l) (href : d.refunded = true)
    (hfirst : ∀ d0, l.find? (matchesDeposit input) = some d0 → d0.refunded = false) :
    d ∈ markRefunded l input hash := by
  induction l with
  | nil => cases hd
  | cons x rest ih =>
    unfold markRefunded
    by_cases hm : matchesDeposit input x = true
    · rw [if_pos hm]
      have hx : x.refunded = false := hfirst x (List.find?_cons_of_pos rest hm)
      rcases List.mem_cons.mp hd with rfl | hdrest
      · rw [href] at hx; cases hx
      · exact List.mem_cons_of_mem _ hdrest
    · rw [if_neg hm]
      rcases List.mem_cons.mp hd with rfl | hdrest
      · exact List.mem_cons_self _ _
      · refine List.mem_cons_of_mem _ (ih hdrest ?_)
        intro d0 h0
        refine hfirst d0 ?_
        rw [List.find?_cons_of_neg rest hm]
        exact h0

theorem storeGet_storeSet (store : AccountStore) (k : String) (s : AccountSession)
    (address : String) :
    storeGet (storeSet store k s) address =
      if k = normalizeAddress address then some s else storeGet store address := by
  induction store with
  | nil =>
    by_cases hk : k = normalizeAddress address
    · have hb : (k == normalizeAddress address) = true := by simp [hk]
      simp [storeSet, storeGet, List.find?, hb, hk]
    · have hb : (k == normalizeAddress address) = false := by simp [hk]
      simp [storeSet, storeGet, List.find?, hb, hk]
  | cons p rest ih =>
    by_cases hp : p.1 = k
    · have hset : storeSet (p :: rest) k s = (k, s) :: rest := by
        simp [storeSet, hp]
      rw [hset]
      by_cases hk : k = normalizeAddress address
      · have hb : (k == normalizeAddress address) = true := by simp [hk]
        have hfind : List.find? (fun q => q.1 == normalizeAddress address) ((k, s) :: rest)
            = some (k, s) := by
          simp [List.find?, hb]
        simp [storeGet, hfind, hk]
      · have hb : (k == normalizeAddress address) = false := by simp [hk]
        have hpb : (p.1 == normalizeAddress address) = false := by simp [hp, hk]
        have hfind : List.find? (fun q => q.1 == normalizeAddress address) ((k, s) :: rest)
            = List.find? (fun q => q.1 == normalizeAddress address) rest := by
          simp [List.find?, hb]
        have hfind2 : List.find? (fun q => q.1 == normalizeAddress address) (p :: rest)
            = List.find? (fun q => q.1 == normalizeAddress address) rest := by
          simp [List.find?, hpb]
        simp [storeGet, hfind, hfind2, hk]
    · have hpk : (p.1 == k) = false := by simp [hp]
      have hset : storeSet (p :: rest) k s = p :: storeSet rest k s := by
        simp [storeSet, hpk]
      rw [hset]
      by_cases hq : p.1 = normalizeAddress address
      · have hk : ¬k = normalizeAddress address := fun he => hp (hq.trans he.symm)
        have hqb : (p.1 == normalizeAddress address) = true := by simp [hq]
        have hfind : List.find? (fun q => q.1 == normalizeAddress address)
            (p :: storeSet rest k s) = some p := by
          simp [List.find?, hqb]
        have hfind2 : List.find? (fun q => q.1 == normalizeAddress address) (p :: rest)
            = some p := by
          simp [List.find?, hqb]
        simp [storeGet, hfind, hfind2, hk]
      · have hqb : (p.1 == normalizeAddress address) = false := by simp [hq]
        have hfind : ∀ l, List.find? (fun q => q.1 == normalizeAddress address) (p :: l)
            = List.find? (fun q => q.1 == normalizeAddress address) l := by
          intro l; simp [List.find?, hqb]
        simp only [storeGet, hfind]
        simpa [storeGet] using ih

/-- C3: a refund request resolving to an already-refunded ledger record is
rejected with the already-refunded reason, with no store mutation and no
dependence on any submission outcome (so it is rejected before any
submission step); moreover every refunded record in the store survives any
refund request byte-for-byte — its settlement hash is never overwritten
and its refunded flag, once true, never changes. -/
theorem no_double_refund :
    (∀ store req outcome session storedDeposit,
        getAccountSession store req.accountAddress = some session →
        session.credentialId = req.credentialId →
        session.deposits.find? (matchesDeposit req.deposit) = some storedDeposit →
        storedDeposit.refunded = true →
        refundRoute store req outcome =
          (store, .failure 400 "Deposit already refunded"))
    ∧ (∀ store req outcome key session,
        storeGet store key = some session →
        ∀ d ∈ session.deposits, d.refunded = true →
        ∃ session2, storeGet (refundRoute store req outcome).1 key = some session2
          ∧ d ∈ session2.deposits) := by
  constructor
  · intro store req outcome session storedDeposit hs hcred hf href
    have hv : validateRefund store req = some .alreadyRefunded := by
      unfold validateRefund
      rw [hs]
      dsimp only
      have hcb : (session.credentialId != req.credentialId) = false := by
        simp [hcred]
      rw [hcb]
      simp only [Bool.false_eq_true, if_false]
      rw [hf]
      dsimp only
      rw [if_pos href]
    simp [refundRoute, hv, RefundError.statusCode, RefundError.message]
  · intro store req outcome key session hkey d hd href
    cases hv : validateRefund store req with
    | some e =>
      refine ⟨session, ?_, hd⟩
      simp [refundRoute, hv, hkey]
    | none =>
      cases outcome with
      | simulateThrows msg => exact ⟨session, by simp [refundRoute, hv, hkey], hd⟩
      | broadcastThrows msg => exact ⟨session, by simp [refundRoute, hv, hkey], hd⟩
      | receiptThrows msg => exact ⟨session, by simp [refundRoute, hv, hkey], hd⟩
      | reverted hash => exact ⟨session, by simp [refundRoute, hv, hkey], hd⟩
      | success hash =>
        obtain ⟨s0, d0, hs0, hf0, hr0⟩ := validateRefund_none_spec hv
        have hroute : (refundRoute store req (.success hash)).1 =
            markRefundedStore store req hash := by
          simp [refundRoute, hv]
        rw [hroute]
        unfold markRefundedStore
        rw [hs0]
        rw [storeGet_storeSet]
        by_cases hkeq : normalizeAddress req.accountAddress = normalizeAddress key
        · rw [if_pos hkeq]
          have hsame : s0 = session := by
            have h1 : storeGet store req.accountAddress = some s0 := hs0
            have h2 : storeGet store key = some session := hkey
            unfold storeGet at h1 h2
            rw [hkeq] at h1
            rw [h1] at h2
            exact Option.some.inj h2
          subst hsame
          refine ⟨_, rfl, ?_⟩
          refine mem_markRefunded_of_refunded hd href ?_
          intro d1 h1
          rw [hf0] at h1
          rw [← Option.some.inj h1]
          exact hr0
        · rw [if_neg hkeq]
          exact ⟨session, hkey, hd⟩

/-- C3 witness: the concrete already-refunded record is rejected with the
already-refunded reason for a success-capable outcome, and survives the
request unchanged. -/
theorem no_double_refund_witness :
    refundRoute c3store c3request (.success "0xnew") =
      (c3store, .failure 400 "Deposit already refunded")
    ∧ ∃ session2,
        storeGet (refundRoute c3store c3request (.success "0xnew")).1 "0xacc" =
          some session2
        ∧ c3deposit ∈ session2.deposits := by
  constructor
  · exact no_double_refund.1 c3store c3request (.success "0xnew") c3session c3deposit
      (by decide) (by decide) (by decide) (by decide)
  · exact no_double_refund.2 c3store c3request (.success "0xnew") "0xacc" c3session
      (by decide) c3deposit (by decide) (by decide)

theorem validLogFields_blockNumber {log : RawLog} {p : ParsedLog}
    (h : validLogFields log = some p) : log.blockNumber = some p.blockNumber := by
  obtain ⟨fa, ta, v, tx, li, bn⟩ := log
  cases bn with
  | none => simp [validLogFields] at h
  | some b =>
    cases li with
    | none => simp [validLogFields] at h
    | some idx =>
      cases tx with
      | none => simp [validLogFields] at h
      | some tx0 =>
        cases fa with
        | none => simp [validLogFields] at h
        | some sender =>
          cases v with
          | none => simp [validLogFields] at h
          | some v0 =>
            simp only [validLogFields] at h
            split at h
            · cases h
            · injection h with h2
              subst h2
              rfl

theorem mem_getLogs_block {chain : List RawLog} {acc : String} {a t : Nat} {log : RawLog}
    (h : log ∈ getLogs chain acc a t) :
    ∃ b, log.blockNumber = some b ∧ a ≤ b ∧ b ≤ t := by
  have hp := (List.mem_filter.mp h).2
  simp only [Bool.and_eq_true] at hp
  have hr : logInRange a t log = true := hp.2
  unfold logInRange at hr
  cases hbn : log.blockNumber with
  | none => rw [hbn] at hr; cases hr
  | some b =>
    rw [hbn] at hr
    simp only [Bool.and_eq_true, decide_eq_true_eq] at hr
    exact ⟨b, rfl, hr.1, hr.2⟩

theorem fetchLoop_mem_block (chain : List RawLog) (acc : String) :
    ∀ (fuel cursor endB : Nat), endB + 1 - cursor ≤ fuel →
    ∀ log ∈ (fetchLoop chain acc cursor endB).1,
      ∃ b, log.blockNumber = some b ∧ b ≤ endB := by
  intro fuel
  induction fuel with
  | zero =>
    intro cursor endB hf log hlog
    rw [fetchLoop] at hlog
    rw [dif_neg (by omega)] at hlog
    cases hlog
  | succ n ih =>
    intro cursor endB hf log hlog
    rw [fetchLoop] at hlog
    by_cases hc : cursor ≤ endB
    · rw [dif_pos hc] at hlog
      dsimp only at hlog
      rw [List.mem_append] at hlog
      rcases hlog with h1 | h2
      · obtain ⟨b, hb, _, hbt⟩ := mem_getLogs_block h1
        refine ⟨b, hb, le_trans hbt ?_⟩
        exact min_le_right _ _
      · refine ih (min (cursor + MAX_GET_LOGS_RANGE - 1) endB + 1) endB ?_ log ?_
        · simp only [MAX_GET_LOGS_RANGE] at *
          omega
        · exact h2
    · rw [dif_neg hc] at hlog
      cases hlog

theorem fetchTransferLogs_mem_block {chain : List RawLog} {acc : String}
    {start endB : Nat} {log : RawLog}
    (h : log ∈ fetchTransferLogs chain acc start endB) :
    ∃ b, log.blockNumber = some b ∧ b ≤ endB :=
  fetchLoop_mem_block chain acc (endB + 1 - start) start endB (le_refl _) log h

theorem foldl_ingest_cursor_le (ts : Nat → Nat) (N : Nat) :
    ∀ (logs : List RawLog) (s : AccountSession),
    (∀ log ∈ logs, ∀ p, validLogFields log = some p → p.blockNumber ≤ N) →
    (∀ l, s.lastSyncedBlock = some l → l ≤ N) →
    ∀ l, (logs.foldl (ingestLog ts) s).lastSyncedBlock = some l → l ≤ N := by
  intro logs
  induction logs with
  | nil => intro s _ hs l hl; exact hs l hl
  | cons log rest ih =>
    intro s hlogs hs l hl
    rw [List.foldl_cons] at hl
    refine ih (ingestLog ts s log)
      (fun lg hlg => hlogs lg (List.mem_cons_of_mem _ hlg)) ?_ l hl
    intro l2 hl2
    unfold ingestLog at hl2
    cases hv : validLogFields log with
    | none =>
      rw [hv] at hl2
      exact hs l2 hl2
    | some p =>
      rw [hv] at hl2
      simp only at hl2
      have hpb := hlogs log (List.mem_cons_self _ _) p hv
      rw [← Option.some.inj hl2]
      exact hpb

theorem foldl_ingest_cursor_ge (ts : Nat → Nat) (L : Nat) :
    ∀ (logs : List RawLog) (s : AccountSession),
    (∀ log ∈ logs, ∀ p, validLogFields log = some p → L ≤ p.blockNumber) →
    (∃ x, s.lastSyncedBlock = some x ∧ L ≤ x) →
    ∃ x, (logs.foldl (ingestLog ts) s).lastSyncedBlock = some x ∧ L ≤ x := by
  intro logs
  induction logs with
  | nil => intro s _ hs; exact hs
  | cons log rest ih =>
    intro s hlogs hs
    rw [List.foldl_cons]
    refine ih (ingestLog ts s log)
      (fun lg hlg => hlogs lg (List.mem_cons_of_mem _ hlg)) ?_
    unfold ingestLog
    cases hv : validLogFields log with
    | none => exact hs
    | some p =>
      simp only
      exact ⟨p.blockNumber, rfl, hlogs log (List.mem_cons_self _ _) p hv⟩

theorem hydrateFinalize_cursor (N : Nat) (s2 : AccountSession)
    (h : ∀ l, s2.lastSyncedBlock = some l → l ≤ N) :
    (hydrateFinalize N s2).lastSyncedBlock = some N := by
  unfold hydrateFinalize
  cases hl : s2.lastSyncedBlock with
  | none => rfl
  | some last =>
    dsimp only
    by_cases hlt : last < N
    · rw [if_pos hlt]
    · rw [if_neg hlt]
      rw [hl]
      have hle : last ≤ N := h last hl
      have heq : last = N := by omega
      rw [heq]

theorem hydrate_sets_cursor_to_head (env : ChainEnv) (s : AccountSession) :
    (hydrateDeposits env s).lastSyncedBlock = some env.latestBlock := by
  unfold hydrateDeposits
  by_cases h1 : hydrateFromBlock env.latestBlock s.lastSyncedBlock > env.latestBlock
  · rw [if_pos h1]
  · rw [if_neg h1]
    dsimp only
    by_cases h2 : (fetchTransferLogs env.chain s.accountAddress
        (hydrateFromBlock env.latestBlock s.lastSyncedBlock) env.latestBlock).isEmpty
    · rw [if_pos h2]
    · rw [if_neg h2]
      refine hydrateFinalize_cursor env.latestBlock _ ?_
      refine foldl_ingest_cursor_le env.blockTimestamp env.latestBlock _ s ?_ ?_
      · intro lg hlg p hp
        obtain ⟨b, hb, hble⟩ := fetchTransferLogs_mem_block hlg
        rw [validLogFields_blockNumber hp] at hb
        rw [Option.some.inj hb]
        exact hble
      · intro l hl
        rw [hl] at h1
        unfold hydrateFromBlock at h1
        dsimp only at h1
        omega

/-- C8 counterexample: hydration always ends with the cursor at the
observed chain head, so when a (lagging) head of 5 is observed while the
session cursor is already 10, the write decreases the cursor from 10 to 5
— refuting unconditional monotonicity. -/
theorem cursor_monotonicity_counterexample :
    c8laggingSession.lastSyncedBlock = some 10
    ∧ (hydrateDeposits c8laggingEnv c8laggingSession).lastSyncedBlock = some 5
    ∧ (5 : Nat) < 10 :=
  ⟨rfl, rfl, by decide⟩

/-- C8 (amended): every cursor write is non-decreasing provided the
environment is consistent — hydration never observes a chain head below
the current cursor, and live-poll events arrive at blocks not below the
current cursor; a polling failure never writes the cursor.  (Hydration
unconditionally ends with the cursor at the observed head, so a head
observed below the cursor decreases it, as the counterexample shows.) -/
theorem cursor_monotone_with_consistent_head :
    (∀ (env : ChainEnv) (s : AccountSession) (l : Nat),
        s.lastSyncedBlock = some l → l ≤ env.latestBlock →
        ∃ l2, (hydrateDeposits env s).lastSyncedBlock = some l2 ∧ l ≤ l2)
    ∧ (∀ (ts : Nat → Nat) (s : AccountSession) (logs : List RawLog) (l : Nat),
        s.lastSyncedBlock = some l →
        (∀ log ∈ logs, ∀ p, validLogFields log = some p → l ≤ p.blockNumber) →
        ∃ l2, (watcherOnLogs ts s logs).lastSyncedBlock = some l2 ∧ l ≤ l2)
    ∧ (∀ s, (watcherOnError s).lastSyncedBlock = s.lastSyncedBlock) := by
  refine ⟨?_, ?_, ?_⟩
  · intro env s l _ hle
    exact ⟨env.latestBlock, hydrate_sets_cursor_to_head env s, hle⟩
  · intro ts s logs l hl hb
    exact foldl_ingest_cursor_ge ts l logs s hb ⟨l, hl, le_refl l⟩
  · intro s; rfl

/-- C8 witness: with cursor 3 and head 5 hydration moves the cursor
forward; a poll delivering one event at block 9 moves it forward; a
polling failure leaves it untouched. -/
theorem cursor_monotone_with_consistent_head_witness :
    (∃ l2, (hydrateDeposits c8env c8session).lastSyncedBlock = some l2 ∧ 3 ≤ l2)
    ∧ (∃ l2, (watcherOnLogs (fun _ => 0) c8session [c8log]).lastSyncedBlock = some l2
        ∧ 3 ≤ l2)
    ∧ (watcherOnError c8session).lastSyncedBlock = c8session.lastSyncedBlock := by
  refine ⟨cursor_monotone_with_consistent_head.1 c8env c8session 3 rfl (by decide),
    cursor_monotone_with_consistent_head.2.1 (fun _ => 0) c8session [c8log] 3 rfl ?_,
    cursor_monotone_with_consistent_head.2.2 c8session⟩
  intro log hlog p hp
  have hlc : log = c8log := by simpa using hlog
  subst hlc
  have hpc : p = ⟨"0xAAA", 7, "0xt9", 0, 9⟩ := by
    have h2 : validLogFields c8log = some ⟨"0xAAA", 7, "0xt9", 0, 9⟩ := by decide
    rw [h2] at hp
    exact (Option.some.inj hp).symm
  subst hpc
  decide

theorem getLogs_nil_of_gt (chain : List RawLog) (acc : String) {a t : Nat} (h : t < a) :
    getLogs chain acc a t = [] := by
  unfold getLogs
  rw [List.filter_eq_nil_iff]
  intro log _ hp
  simp only [Bool.and_eq_true] at hp
  have hr := hp.2
  unfold logInRange at hr
  cases hbn : log.blockNumber with
  | none => rw [hbn] at hr; cases hr
  | some b =>
    rw [hbn] at hr
    simp only [Bool.and_eq_true, decide_eq_true_eq] at hr
    omega

theorem getLogs_split (acc : String) (a m e : Nat) (ham : a ≤ m) (hme : m ≤ e) :
    ∀ (chain : List RawLog), ChainSorted chain →
    getLogs chain acc a m ++ getLogs chain acc (m + 1) e = getLogs chain acc a e := by
  intro chain
  induction chain with
  | nil => intro _; rfl
  | cons log rest ih =>
    intro hs
    have hhead := (List.pairwise_cons.mp hs).1
    have hrest : ChainSorted rest := (List.pairwise_cons.mp hs).2
    by_cases hacc : (log.toAddr == acc) = true
    · cases hbn : log.blockNumber with
      | none =>
        have h1 : (log.toAddr == acc && logInRange a m log) = false := by
          simp [logInRange, hbn]
        have h2 : (log.toAddr == acc && logInRange (m + 1) e log) = false := by
          simp [logInRange, hbn]
        have h3 : (log.toAddr == acc && logInRange a e log) = false := by
          simp [logInRange, hbn]
        unfold getLogs at *
        simp only [List.filter_cons, h1, h2, h3, Bool.false_eq_true, if_false]
        exact ih hrest
      | some b =>
        rcases Nat.lt_or_ge b a with hba | hba
        · have h1 : (log.toAddr == acc && logInRange a m log) = false := by
            simp [logInRange, hbn]; omega
          have h2 : (log.toAddr == acc && logInRange (m + 1) e log) = false := by
            simp [logInRange, hbn]; omega
          have h3 : (log.toAddr == acc && logInRange a e log) = false := by
            simp [logInRange, hbn]; omega
          unfold getLogs at *
          simp only [List.filter_cons, h1, h2, h3, Bool.false_eq_true, if_false]
          exact ih hrest
        · rcases le_or_lt b m with hbm | hbm
          · have h1 : (log.toAddr == acc && logInRange a m log) = true := by
              simp [logInRange, hbn, hacc]; omega
            have h2 : (log.toAddr == acc && logInRange (m + 1) e log) = false := by
              simp [logInRange, hbn]; omega
            have h3 : (log.toAddr == acc && logInRange a e log) = true := by
              simp [logInRange, hbn, hacc]; omega
            unfold getLogs at *
            simp only [List.filter_cons, h1, h2, h3, Bool.false_eq_true, if_false,
              if_true, List.cons_append]
            rw [ih hrest]
          · rcases le_or_lt b e with hbe | hbe
            · have h1 : (log.toAddr == acc && logInRange a m log) = false := by
                simp [logInRange, hbn]; omega
              have h2 : (log.toAddr == acc && logInRange (m + 1) e log) = true := by
                simp [logInRange, hbn, hacc]; omega
              have h3 : (log.toAddr == acc && logInRange a e log) = true := by
                simp [logInRange, hbn, hacc]; omega
              have hnil : List.filter (fun lg => lg.toAddr == acc && logInRange a m lg)
                  rest = [] := by
                rw [List.filter_eq_nil_iff]
                intro lg hlg hp
                simp only [Bool.and_eq_true] at hp
                have hr := hp.2
                unfold logInRange at hr
                cases hb2 : lg.blockNumber with
                | none => rw [hb2] at hr; cases hr
                | some b2 =>
                  rw [hb2] at hr
                  simp only [Bool.and_eq_true, decide_eq_true_eq] at hr
                  have hble := hhead lg hlg
                  unfold blockLe at hble
                  rw [hbn, hb2] at hble
                  simp only [decide_eq_true_eq] at hble
                  omega
              have hcong : List.filter (fun lg => lg.toAddr == acc && logInRange (m + 1) e lg)
                  rest = List.filter (fun lg => lg.toAddr == acc && logInRange a e lg)
                    rest := by
                refine List.filter_congr ?_
                intro lg hlg
                cases hb2 : lg.blockNumber with
                | none => simp [logInRange, hb2]
                | some b2 =>
                  have hble := hhead lg hlg
                  unfold blockLe at hble
                  rw [hbn, hb2] at hble
                  simp only [decide_eq_true_eq] at hble
                  have hd1 : decide (m + 1 ≤ b2) = true := by
                    simp; omega
                  have hd2 : decide (a ≤ b2) = true := by
                    simp; omega
                  simp only [logInRange, hb2, hd1, hd2]
              unfold getLogs at *
              simp only [List.filter_cons, h1, h2, h3, Bool.false_eq_true, if_false,
                if_true]
              rw [hnil, hcong]
              rfl
            · have h1 : (log.toAddr == acc && logInRange a m log) = false := by
                simp [logInRange, hbn]; omega
              have h2 : (log.toAddr == acc && logInRange (m + 1) e log) = false := by
                simp [logInRange, hbn]; omega
              have h3 : (log.toAddr == acc && logInRange a e log) = false := by
                simp [logInRange, hbn]; omega
              unfold getLogs at *
              simp only [List.filter_cons, h1, h2, h3, Bool.false_eq_true, if_false]
              exact ih hrest
    · have h1 : ∀ x y : Nat, (log.toAddr == acc && logInRange x y log) = false := by
        intro x y
        simp [hacc]
      unfold getLogs at *
      simp only [List.filter_cons, h1, Bool.false_eq_true, if_false]
      exact ih hrest

theorem getLast?_cons_of_ne_nil {α : Type} (a : α) {l : List α} (h : l ≠ []) :
    (a :: l).getLast? = l.getLast? := by
  cases l with
  | nil => cases h rfl
  | cons b t => simp [List.getLast?_cons_cons]

theorem fetchLoop_ranges_head (chain : List RawLog) (acc : String) (cursor endB : Nat)
    (h : cursor ≤ endB) :
    (fetchLoop chain acc cursor endB).2 =
      (cursor, min (cursor + MAX_GET_LOGS_RANGE - 1) endB) ::
        (fetchLoop chain acc (min (cursor + MAX_GET_LOGS_RANGE - 1) endB + 1) endB).2 := by
  rw [fetchLoop, dif_pos h]

theorem fetchLoop_ranges_nil (chain : List RawLog) (acc : String) (cursor endB : Nat)
    (h : endB < cursor) : fetchLoop chain acc cursor endB = ([], []) := by
  rw [fetchLoop, dif_neg (by omega)]

theorem fetchLoop_ranges_sizes (chain : List RawLog) (acc : String) :
    ∀ (fuel cursor endB : Nat), endB + 1 - cursor ≤ fuel →
    ∀ r ∈ (fetchLoop chain acc cursor endB).2,
      r.1 ≤ r.2 ∧ r.2 + 1 - r.1 ≤ MAX_GET_LOGS_RANGE := by
  intro fuel
  induction fuel with
  | zero =>
    intro cursor endB hf r hr
    rw [fetchLoop_ranges_nil chain acc cursor endB (by omega)] at hr
    cases hr
  | succ n ih =>
    intro cursor endB hf r hr
    by_cases hc : cursor ≤ endB
    · rw [fetchLoop_ranges_head chain acc cursor endB hc] at hr
      rcases List.mem_cons.mp hr with rfl | hr2
      · refine ⟨?_, ?_⟩ <;>
          · dsimp only
            simp only [MAX_GET_LOGS_RANGE]
            omega
      · refine ih _ endB ?_ r hr2
        simp only [MAX_GET_LOGS_RANGE] at *
        omega
    · rw [fetchLoop_ranges_nil chain acc cursor endB (by omega)] at hr
      cases hr

theorem fetchLoop_ranges_chain (chain : List RawLog) (acc : String) :
    ∀ (fuel cursor endB : Nat), endB + 1 - cursor ≤ fuel →
    List.Chain' (fun r1 r2 => r2.1 = r1.2 + 1) (fetchLoop chain acc cursor endB).2 := by
  intro fuel
  induction fuel with
  | zero =>
    intro cursor endB hf
    rw [fetchLoop_ranges_nil chain acc cursor endB (by omega)]
    exact List.chain'_nil
  | succ n ih =>
    intro cursor endB hf
    by_cases hc : cursor ≤ endB
    · rw [fetchLoop_ranges_head chain acc cursor endB hc]
      rw [List.chain'_cons']
      constructor
      · intro r hr
        by_cases hc2 : min (cursor + MAX_GET_LOGS_RANGE - 1) endB + 1 ≤ endB
        · rw [fetchLoop_ranges_head chain acc _ endB hc2] at hr
          simp only [List.head?_cons, Option.mem_def, Option.some.injEq] at hr
          rw [← hr]
        · rw [fetchLoop_ranges_nil chain acc _ endB (by omega)] at hr
          simp at hr
      · refine ih _ endB ?_
        simp only [MAX_GET_LOGS_RANGE] at *
        omega
    · rw [fetchLoop_ranges_nil chain acc cursor endB (by omega)]
      exact List.chain'_nil

theorem fetchLoop_ranges_last (chain : List RawLog) (acc : String) :
    ∀ (fuel cursor endB : Nat), endB + 1 - cursor ≤ fuel → cursor ≤ endB →
    ((fetchLoop chain acc cursor endB).2.getLast?).map Prod.snd = some endB := by
  intro fuel
  induction fuel with
  | zero =>
    intro cursor endB hf hc
    omega
  | succ n ih =>
    intro cursor endB hf hc
    rw [fetchLoop_ranges_head chain acc cursor endB hc]
    by_cases hc2 : min (cursor + MAX_GET_LOGS_RANGE - 1) endB + 1 ≤ endB
    · have hne : (fetchLoop chain acc
          (min (cursor + MAX_GET_LOGS_RANGE - 1) endB + 1) endB).2 ≠ [] := by
        rw [fetchLoop_ranges_head chain acc _ endB hc2]
        simp
      rw [getLast?_cons_of_ne_nil _ hne]
      refine ih _ endB ?_ hc2
      simp only [MAX_GET_LOGS_RANGE] at *
      omega
    · have hrest : fetchLoop chain acc
          (min (cursor + MAX_GET_LOGS_RANGE - 1) endB + 1) endB = ([], []) :=
        fetchLoop_ranges_nil chain acc _ endB (by omega)
      rw [hrest]
      have hmin : min (cursor + MAX_GET_LOGS_RANGE - 1) endB = endB := by
        simp only [MAX_GET_LOGS_RANGE] at *
        omega
      rw [hmin]
      rfl

theorem fetchLoop_ranges_count (chain : List RawLog) (acc : String) :
    ∀ (fuel cursor endB : Nat), endB + 1 - cursor ≤ fuel → ∀ x : Nat,
    ((fetchLoop chain acc cursor endB).2.countP
        (fun r => decide (r.1 ≤ x) && decide (x ≤ r.2))) =
      if cursor ≤ x ∧ x ≤ endB then 1 else 0 := by
  intro fuel
  induction fuel with
  | zero =>
    intro cursor endB hf x
    rw [fetchLoop_ranges_nil chain acc cursor endB (by omega)]
    rw [if_neg (by omega)]
    rfl
  | succ n ih =>
    intro cursor endB hf x
    by_cases hc : cursor ≤ endB
    · rw [fetchLoop_ranges_head chain acc cursor endB hc]
      rw [List.countP_cons]
      rw [ih _ endB (by simp only [MAX_GET_LOGS_RANGE] at *; omega) x]
      simp only [Bool.and_eq_true, decide_eq_true_eq]
      split_ifs <;> simp_all <;> omega
    · rw [fetchLoop_ranges_nil chain acc cursor endB (by omega)]
      rw [if_neg (by omega)]
      rfl

theorem fetchLoop_logs_eq (chain : List RawLog) (acc : String) (hs : ChainSorted chain) :
    ∀ (fuel cursor endB : Nat), endB + 1 - cursor ≤ fuel →
    (fetchLoop chain acc cursor endB).1 = getLogs chain acc cursor endB := by
  intro fuel
  induction fuel with
  | zero =>
    intro cursor endB hf
    rw [fetchLoop_ranges_nil chain acc cursor endB (by omega)]
    rw [getLogs_nil_of_gt chain acc (by omega)]
  | succ n ih =>
    intro cursor endB hf
    by_cases hc : cursor ≤ endB
    · rw [fetchLoop, dif_pos hc]
      dsimp only
      rw [ih _ endB (by simp only [MAX_GET_LOGS_RANGE] at *; omega)]
      refine getLogs_split acc cursor (min (cursor + MAX_GET_LOGS_RANGE - 1) endB) endB
        ?_ ?_ chain hs
      · simp only [MAX_GET_LOGS_RANGE]
        omega
      · omega
    · rw [fetchLoop_ranges_nil chain acc cursor endB (by omega)]
      rw [getLogs_nil_of_gt chain acc (by omega)]

/-- C4: the chunked fetcher partitions `[from, to]` into consecutive
closed sub-ranges of size at most `MAX_GET_LOGS_RANGE`, queried in
increasing order — each sub-range starts where the previous one ended plus
one (`Chain'`), the first starts at `from`, the last ends at `to`, and
every block of `[from, to]` is covered by exactly one queried sub-range
while blocks outside are covered by none (no skip, no duplicate); the
concatenated results equal a single query over `[from, to]` whenever the
chain delivers logs in non-decreasing block order; and when `from > to`
the fetcher returns the empty sequence having issued no query. -/
theorem chunked_fetch_contract :
    (∀ (chain : List RawLog) (acc : String) (cursor endB : Nat), endB < cursor →
        fetchLoop chain acc cursor endB = ([], []))
    ∧ (∀ (chain : List RawLog) (acc : String) (cursor endB : Nat),
        ∀ r ∈ (fetchLoop chain acc cursor endB).2,
          r.1 ≤ r.2 ∧ r.2 + 1 - r.1 ≤ MAX_GET_LOGS_RANGE)
    ∧ (∀ (chain : List RawLog) (acc : String) (cursor endB : Nat),
        List.Chain' (fun r1 r2 => r2.1 = r1.2 + 1) (fetchLoop chain acc cursor endB).2)
    ∧ (∀ (chain : List RawLog) (acc : String) (cursor endB : Nat), cursor ≤ endB →
        ((fetchLoop chain acc cursor endB).2.head?).map Prod.fst = some cursor
        ∧ ((fetchLoop chain acc cursor endB).2.getLast?).map Prod.snd = some endB)
    ∧ (∀ (chain : List RawLog) (acc : String) (cursor endB x : Nat),
        ((fetchLoop chain acc cursor endB).2.countP
            (fun r => decide (r.1 ≤ x) && decide (x ≤ r.2))) =
          if cursor ≤ x ∧ x ≤ endB then 1 else 0)
    ∧ (∀ (chain : List RawLog) (acc : String) (cursor endB : Nat), ChainSorted chain →
        fetchTransferLogs chain acc cursor endB = getLogs chain acc cursor endB) := by
  refine ⟨?_, ?_, ?_, ?_, ?_, ?_⟩
  · intro chain acc cursor endB h
    exact fetchLoop_ranges_nil chain acc cursor endB h
  · intro chain acc cursor endB r hr
    exact fetchLoop_ranges_sizes chain acc (endB + 1 - cursor) cursor endB (le_refl _) r hr
  · intro chain acc cursor endB
    exact fetchLoop_ranges_chain chain acc (endB + 1 - cursor) cursor endB (le_refl _)
  · intro chain acc cursor endB hc
    constructor
    · rw [fetchLoop_ranges_head chain acc cursor endB hc]
      rfl
    · exact fetchLoop_ranges_last chain acc (endB + 1 - cursor) cursor endB (le_refl _) hc
  · intro chain acc cursor endB x
    exact fetchLoop_ranges_count chain acc (endB + 1 - cursor) cursor endB (le_refl _) x
  · intro chain acc cursor endB hs
    exact fetchLoop_logs_eq chain acc hs (endB + 1 - cursor) cursor endB (le_refl _)

/-- C4 witness: the contract applied to the concrete sorted two-log chain
over `[0, 12]` (two sub-ranges: `(0, 9)` and `(10, 12)`) and to the empty
range `[5, 3]`. -/
theorem chunked_fetch_contract_witness :
    fetchLoop c4chain "0xme" 5 3 = ([], [])
    ∧ ((0, 9) : Nat × Nat).1 ≤ ((0, 9) : Nat × Nat).2
    ∧ ((0, 9) : Nat × Nat).2 + 1 - ((0, 9) : Nat × Nat).1 ≤ MAX_GET_LOGS_RANGE
    ∧ List.Chain' (fun r1 r2 => r2.1 = r1.2 + 1) (fetchLoop c4chain "0xme" 0 12).2
    ∧ ((fetchLoop c4chain "0xme" 0 12).2.head?).map Prod.fst = some 0
    ∧ ((fetchLoop c4chain "0xme" 0 12).2.getLast?).map Prod.snd = some 12
    ∧ ((fetchLoop c4chain "0xme" 0 12).2.countP
        (fun r => decide (r.1 ≤ 11) && decide (11 ≤ r.2))) =
        (if 0 ≤ 11 ∧ 11 ≤ 12 then 1 else 0)
    ∧ fetchTransferLogs c4chain "0xme" 0 12 = getLogs c4chain "0xme" 0 12 := by
  have hmem : ((0, 9) : Nat × Nat) ∈ (fetchLoop c4chain "0xme" 0 12).2 := by
    have hh := fetchLoop_ranges_head c4chain "0xme" 0 12 (by omega)
    rw [show min (0 + MAX_GET_LOGS_RANGE - 1) 12 = 9 from by
      simp [MAX_GET_LOGS_RANGE]] at hh
    rw [hh]
    exact List.mem_cons_self _ _
  have hsz := chunked_fetch_contract.2.1 c4chain "0xme" 0 12 (0, 9) hmem
  refine ⟨chunked_fetch_contract.1 c4chain "0xme" 5 3 (by omega),
    hsz.1, hsz.2,
    chunked_fetch_contract.2.2.1 c4chain "0xme" 0 12,
    (chunked_fetch_contract.2.2.2.1 c4chain "0xme" 0 12 (by omega)).1,
    (chunked_fetch_contract.2.2.2.1 c4chain "0xme" 0 12 (by omega)).2,
    chunked_fetch_contract.2.2.2.2.1 c4chain "0xme" 0 12 11,
    chunked_fetch_contract.2.2.2.2.2 c4chain "0xme" 0 12 ?_⟩
  unfold ChainSorted
  decide

theorem validateRefund_eq_spec (store : AccountStore) (req : RefundRequest)
    (hdec : reqDecodes req = true) :
    validateRefund store req = specValidationFirstFailure store req := by
  unfold validateRefund specValidationFirstFailure
  cases hs : getAccountSession store req.accountAddress with
  | none => rfl
  | some session =>
    dsimp only
    by_cases hc : (session.credentialId != req.credentialId) = true
    · rw [if_pos hc, if_pos hc]
    · rw [if_neg hc, if_neg hc]
      cases hf : session.deposits.find? (matchesDeposit req.deposit) with
      | none => rfl
      | some d =>
        dsimp only
        cases hr : d.refunded with
        | true => simp [specChecks, List.find?, hr]
        | false =>
          cases hready : d.ready with
          | false => simp [specChecks, List.find?, hr, hready]
          | true =>
            cases hsender : normalizeAddress req.userOp.sender ==
                normalizeAddress req.accountAddress with
            | false => simp [specChecks, List.find?, bne, hr, hready, hsender]
            | true =>
              cases hcd : req.userOp.callData with
              | malformed => simp [reqDecodes, hcd] at hdec
              | executeBadBatch => simp [reqDecodes, hcd] at hdec
              | otherFn name =>
                simp [specChecks, List.find?, bne, hr, hready, hsender, hcd,
                  OuterCallData.isExecute, OuterCallData.executionCalls]
              | execute calls =>
                cases calls with
                | nil =>
                  simp [specChecks, List.find?, bne, hr, hready, hsender, hcd,
                    OuterCallData.isExecute, OuterCallData.executionCalls]
                | cons firstCall restCalls =>
                  cases htarget : normalizeAddress firstCall.target ==
                      normalizeAddress USDC_ADDRESS with
                  | false =>
                    simp [specChecks, List.find?, bne, hr, hready, hsender, hcd,
                      OuterCallData.isExecute, OuterCallData.executionCalls, htarget]
                  | true =>
                    cases hvalue : firstCall.value == 0 with
                    | false =>
                      simp [specChecks, List.find?, bne, hr, hready, hsender, hcd,
                        OuterCallData.isExecute, OuterCallData.executionCalls, htarget,
                        hvalue]
                    | true =>
                      cases htok : firstCall.callData with
                      | malformed => simp [reqDecodes, hcd, htok] at hdec
                      | otherFn n2 =>
                        simp [specChecks, List.find?, bne, hr, hready, hsender, hcd,
                          OuterCallData.isExecute, OuterCallData.executionCalls,
                          htarget, hvalue, htok, TokenCallData.isTransfer]
                      | transfer recipient transferAmount =>
                        cases hrec : normalizeAddress recipient ==
                            normalizeAddress d.sender with
                        | false =>
                          simp [specChecks, List.find?, bne, hr, hready, hsender, hcd,
                            OuterCallData.isExecute, OuterCallData.executionCalls,
                            htarget, hvalue, htok, TokenCallData.isTransfer,
                            TokenCallData.recipient, hrec]
                        | true =>
                          cases hamount : transferAmount == d.amount with
                          | false =>
                            simp [specChecks, List.find?, bne, hr, hready, hsender,
                              hcd, OuterCallData.isExecute,
                              OuterCallData.executionCalls, htarget, hvalue, htok,
                              TokenCallData.isTransfer, TokenCallData.recipient,
                              TokenCallData.transferredAmount, hrec, hamount]
                          | true =>
                            simp [specChecks, List.find?, bne, hr, hready, hsender,
                              hcd, OuterCallData.isExecute,
                              OuterCallData.executionCalls, htarget, hvalue, htok,
                              TokenCallData.isTransfer, TokenCallData.recipient,
                              TokenCallData.transferredAmount, hrec, hamount]

/-- C1: the refund validator equals the spec-side first-failing-check scan
(checks in the stated order, each with its own reason) on every request
whose nested payloads decode; any validation failure makes the route
return that failure with the store untouched and independently of the
submission outcome (so the abort happens before any submission); and the
reason strings of the distinct rejections are pairwise distinct
(machine-distinguishable). -/
theorem refund_validation_sequence :
    (∀ (store : AccountStore) (req : RefundRequest), reqDecodes req = true →
        validateRefund store req = specValidationFirstFailure store req)
    ∧ (∀ (store : AccountStore) (req : RefundRequest) (outcome : SubmitOutcome)
        (e : RefundError), validateRefund store req = some e →
        refundRoute store req outcome = (store, .failure e.statusCode e.message))
    ∧ validationMessages.Nodup := by
  refine ⟨?_, ?_, ?_⟩
  · exact validateRefund_eq_spec
  · intro store req outcome e hv
    simp [refundRoute, hv]
  · decide

/-- C1 witness: the refinement and the no-mutation abort, at the empty
store (check 1 fails) with a well-formed request. -/
theorem refund_validation_sequence_witness :
    validateRefund [] c1request = specValidationFirstFailure [] c1request
    ∧ refundRoute [] c1request (.success "0xh") =
        ([], .failure 404 "Account session not found") := by
  constructor
  · exact refund_validation_sequence.1 [] c1request (by decide)
  · exact refund_validation_sequence.2.1 [] c1request (.success "0xh")
      RefundError.sessionNotFound rfl

end WebauthnPrac
